import Mathlib

/-!
Shallow embedding of the check-payload driver (package `main`):
`types_config.go` (node scan: `runNodeScan`, `getFilesFromRPM`, `getAllRPMs`,
`isSymlink`, `NewTag`) and the CLI driver file (`main`, `getConfig`,
`scanCmd` and its subcommands).

External effects (subprocess execution of `rpm`, filesystem `Lstat`/`Stat`,
MIME sniffing, the scan engine living in `internal/...`) are modelled as an
explicit environment of pure functions; each run of the Go code corresponds
to one choice of environment.  Go slices become Lean lists, `time.Duration`
becomes `Int` nanoseconds, fallible calls return `Except`/`Option`.
-/

namespace CheckPayload

/-- Embeds `v1.TagReference` as used by the driver: only `From.Name` is ever
set (see `NewTag`), so we keep just that string. -/
structure TagReference where
  name : String
  deriving Repr, DecidableEq

/-- Embeds `NewTag` (types_config.go): builds a tag whose `From.Name` is
`name`. -/
def NewTag (name : String) : TagReference := ⟨name⟩

/-- Embeds `types.ScanResult` as far as the driver files use it: a tag, an
optional path and an optional error (set via `SetTag`/`SetPath`/`SetError`). -/
structure ScanResult where
  tag : Option TagReference
  path : Option String
  error : Option String
  deriving Repr, DecidableEq

/-- Embeds `types.NewScanResult()`: a fresh result with nothing set. -/
def NewScanResult : ScanResult := ⟨none, none, none⟩

/-- Embeds `(*ScanResult).SetTag`. -/
def ScanResult.SetTag (r : ScanResult) (t : TagReference) : ScanResult :=
  { r with tag := some t }

/-- Embeds `(*ScanResult).SetPath`. -/
def ScanResult.SetPath (r : ScanResult) (p : String) : ScanResult :=
  { r with path := some p }

/-- Embeds `(*ScanResult).SetError`; the Go error value is kept as its
message string. -/
def ScanResult.SetError (r : ScanResult) (e : String) : ScanResult :=
  { r with error := some e }

/-- Embeds `types.ScanResults`: an append-only collection of results. -/
structure ScanResults where
  items : List ScanResult
  deriving Repr, DecidableEq

/-- Embeds `types.NewScanResults()`. -/
def NewScanResults : ScanResults := ⟨[]⟩

/-- Embeds `(*ScanResults).Append`. -/
def ScanResults.Append (rs : ScanResults) (r : ScanResult) : ScanResults :=
  ⟨rs.items ++ [r]⟩

/-- Embeds `types.Config` with the union of the fields the two driver files
read or write (`Config.Log` in types_config.go; `main` in the CLI file).
`time.Duration` fields are `Int` nanoseconds. -/
structure Config where
  Components : List String
  Filter : List String
  FilterFiles : List String
  FilterDirs : List String
  FilterImages : List String
  FromFile : String
  FromURL : String
  Limit : Int
  NodeScan : String
  OperatorImage : String
  OutputFile : String
  OutputFormat : String
  Parallelism : Int
  TimeLimit : Int
  Verbose : Bool
  FailOnWarnings : Bool
  InsecurePull : Bool
  PrintExceptions : Bool
  PullSecret : String
  UseRPMScan : Bool
  deriving Repr, DecidableEq

/-- A `Config` with every field at its Go zero value, as produced by
`var config types.Config` in `main`. -/
def zeroConfig : Config :=
  { Components := [], Filter := [], FilterFiles := [], FilterDirs := []
    FilterImages := [], FromFile := "", FromURL := "", Limit := 0
    NodeScan := "", OperatorImage := "", OutputFile := "", OutputFormat := ""
    Parallelism := 0, TimeLimit := 0, Verbose := false, FailOnWarnings := false
    InsecurePull := false, PrintExceptions := false, PullSecret := ""
    UseRPMScan := false }

/-- Outcome of one `rpm` subprocess invocation: stdout lines on exit 0,
or the pair (stderr contents, error text) on non-zero exit. -/
inductive RpmOutcome where
  | ok (lines : List String)
  | fail (stderr err : String)
  deriving Repr, DecidableEq

/-- Environment for a node scan: outcomes of the external calls made by
`runNodeScan` and its helpers.  `lstat` models `os.Lstat` (error message, or
whether the mode has `ModeSymlink`); `stat` models `os.Stat` (error, or
whether `IsDir()`); `mime` models `mimetype.DetectFile`; `ignoredMimes`
is the policy-defined ignored-MIME list (declared outside the driver files);
`scanBinaryErr` models the `Error` field of the result of
`scan.scanBinary`. -/
structure NodeEnv where
  rpmQa : RpmOutcome
  rpmQl : String → RpmOutcome
  lstat : String → Except String Bool
  stat : String → Except String Bool
  mime : String → Except String String
  ignoredMimes : List String
  scanBinaryErr : String → Option String

/-- Embeds `isSymlink` (types_config.go): `os.Lstat` then the
`ModeSymlink` test; an `Lstat` failure is returned as the error. -/
def isSymlink (env : NodeEnv) (path : String) : Except String Bool :=
  env.lstat path

/-- Embeds `getAllRPMs` (types_config.go): runs `rpm -qa --root cfg.NodeScan`
and returns one package name per stdout line; on non-zero exit it returns the
empty list it started from together with the formatted error. -/
def getAllRPMs (env : NodeEnv) (_cfg : Config) : List String × Option String :=
  match env.rpmQa with
  | .ok lines => (lines, none)
  | .fail stderr err =>
      ([], some ("rpm -qa error (stderr=" ++ stderr ++ ") (err=" ++ err ++ ")"))

/-- Embeds `getFilesFromRPM` (types_config.go): runs
`rpm -ql --root cfg.NodeScan rpm` and returns one file path per stdout line;
on non-zero exit it returns the empty list it started from together with the
formatted error. -/
def getFilesFromRPM (env : NodeEnv) (_cfg : Config) (rpm : String) :
    List String × Option String :=
  match env.rpmQl rpm with
  | .ok lines => (lines, none)
  | .fail stderr err =>
      ([], some ("rpm -ql error (stderr=" ++ stderr ++ ") (err=" ++ err ++ ")"))

/-- Go `strings.HasPrefix s pre`, computed structurally on the character
lists. -/
def strHasPrefix (s pre : String) : Bool :=
  pre.data.isPrefixOf s.data

/-- Go `strings.HasSuffix s suf`, computed structurally on the character
lists. -/
def strHasSuffix (s suf : String) : Bool :=
  suf.data.isSuffixOf s.data

/-- Modelled from the spec: `isPathFiltered` is declared outside the two
driver files.  Per §8 ("no path matching a file- or dir-filter appears") and
§4.1 ("a path predicate accepts a literal prefix"), a path is filtered when
some filter entry is a prefix of it. -/
def isPathFiltered (filter : List String) (path : String) : Bool :=
  filter.any fun f => strHasPrefix path f

/-- Splits a character list on `/`, keeping empty components, as the
element scan inside `filepath.Clean` does. -/
def splitOnSlash : List Char → List (List Char)
  | [] => [[]]
  | c :: rest =>
      let r := splitOnSlash rest
      if c = '/' then [] :: r
      else
        match r with
        | [] => [[c]]
        | h :: t => (c :: h) :: t

/-- One step of `filepath.Clean`'s element loop: empty and `.` components
are dropped, `..` pops the previous component (kept verbatim at the front
of a relative path, discarded at the root of a rooted one), anything else
is appended. -/
def cleanStep (rooted : Bool) (acc : List (List Char)) (c : List Char) :
    List (List Char) :=
  if c = [] ∨ c = ['.'] then acc
  else if c = ['.', '.'] then
    match acc.getLast? with
    | some l => if l = ['.', '.'] then acc ++ [c] else acc.dropLast
    | none => if rooted then [] else [c]
  else acc ++ [c]

/-- Joins cleaned components back with single separators. -/
def joinComps : List (List Char) → List Char
  | [] => []
  | [c] => c
  | c :: rest => c ++ '/' :: joinComps rest

/-- Embeds `filepath.Clean` for slash-separated (Unix) paths: iteratively
drop empty and `.` elements, resolve `..`, preserve rootedness, and return
`.` for an emptied relative path. -/
def filepathClean (s : String) : String :=
  if s = "" then "."
  else
    let rooted := strHasPrefix s "/"
    let comps := (splitOnSlash s.data).foldl (cleanStep rooted) []
    let joined : String := ⟨joinComps comps⟩
    if rooted then
      if joined = "" then "/" else "/" ++ joined
    else
      if joined = "" then "." else joined

/-- Embeds `filepath.Join(root, p)`: the non-empty parts joined with a
single separator, then passed through `filepath.Clean`; all-empty input
stays empty. -/
def filepathJoin (root p : String) : String :=
  if root = "" then
    if p = "" then "" else filepathClean p
  else if p = "" then filepathClean root
  else filepathClean (root ++ "/" ++ p)

/-- Modelled from the spec: `scan.scanBinary` is declared outside the two
driver files.  Per §3 and §4.5, it produces exactly one `ScanResult` for the
given path, carrying the tag it was called with; whether that result carries
an error is the environment's choice. -/
def scanBinary (env : NodeEnv) (tag : TagReference) (_topDir path : String) :
    ScanResult :=
  { tag := some tag, path := some path, error := env.scanBinaryErr path }

/-- Embeds the set of built-in directory filters appended to `cfg.Filter` at
the top of `runNodeScan`. -/
def builtinNodeFilters : List String :=
  ["/lib/modules", "/usr/lib/firmware", "/usr/lib/grub", "/usr/lib/.build-id"]

/-- Embeds the body of the inner `for _, path := range files` loop of
`runNodeScan`.  `tag` is the mutable loop variable as it stands when the
iteration starts; the second component is its value afterwards (the loop
reassigns `tag = NewTag(path)` once the path survives the symlink checks). -/
def processFile (env : NodeEnv) (filter : List String) (root : String)
    (tag : TagReference) (path : String) : List ScanResult × TagReference :=
  if isPathFiltered filter path then ([], tag)
  else
    match isSymlink env path with
    | .error e => ([((NewScanResult.SetTag tag).SetPath path).SetError e], tag)
    | .ok true => ([], tag)
    | .ok false =>
      let path2 := filepathJoin root path
      let tag2 := NewTag path2
      match env.stat path2 with
      | .error _ => ([], tag2)       -- some files are stripped from an rhcos image
      | .ok true => ([], tag2)       -- directory
      | .ok false =>
        match env.mime path2 with
        | .error e =>
            ([((NewScanResult.SetTag tag2).SetPath path2).SetError e], tag2)
        | .ok m =>
            if m ∈ env.ignoredMimes then ([], tag2)
            else ([scanBinary env tag2 root path2], tag2)

/-- Embeds one iteration of the outer `for _, rpm := range rpms` loop of
`runNodeScan`: the results it appends, in order. -/
def processRPM (env : NodeEnv) (filter : List String) (root : String)
    (rpm : String) : List ScanResult :=
  let tag := NewTag rpm
  match getFilesFromRPM env { zeroConfig with NodeScan := root } rpm with
  | (_, some err) => [(NewScanResult.SetTag tag).SetError err]
  | (files, none) =>
      (files.foldl
        (fun acc p =>
          let step := processFile env filter root acc.2 p
          (acc.1 ++ step.1, step.2))
        (([] : List ScanResult), tag)).1

/-- The results appended over a whole list of RPMs, in order. -/
def scanRPMs (env : NodeEnv) (filter : List String) (root : String)
    (rpms : List String) : List ScanResult :=
  (rpms.map (processRPM env filter root)).flatten

/-- Embeds `runNodeScan` (types_config.go).  The Go function mutates `cfg`
through its pointer (`cfg.Filter = append(cfg.Filter, ...)`), so the
embedding returns the updated `Config` together with the `[]*ScanResults`
it returns.  The error of `getAllRPMs` is discarded (`rpms, _ := ...`),
exactly as in the source. -/
def runNodeScan (env : NodeEnv) (cfg : Config) : Config × List ScanResults :=
  let cfg' := { cfg with Filter := cfg.Filter ++ builtinNodeFilters }
  let rpms := (getAllRPMs env cfg').1
  (cfg', [⟨scanRPMs env cfg'.Filter cfg'.NodeScan rpms⟩])

/-! ### Exit-status predicates and the scan command's post-run step -/

/-- Status of an aggregated result, as classified by the scan engine
(spec §3). -/
inductive Status where
  | success
  | warning
  | failure
  | skipped
  deriving Repr, DecidableEq

/-- An aggregated result as seen by `scan.IsFailed`/`scan.IsWarnings`:
its status together with whether the exception matcher suppressed it. -/
structure AggResult where
  status : Status
  suppressed : Bool
  deriving Repr, DecidableEq

/-- Modelled from the spec: `scan.IsFailed` is declared outside the two
driver files.  Per §4.7, it is true iff some result has status `failure`
that survives exception matching. -/
def IsFailed (results : List AggResult) : Bool :=
  results.any fun r => r.status == .failure && !r.suppressed

/-- Modelled from the spec: `scan.IsWarnings` is declared outside the two
driver files.  Per §4.7, it is true iff some warning survives exception
matching. -/
def IsWarnings (results : List AggResult) : Bool :=
  results.any fun r => r.status == .warning && !r.suppressed

/-- Embeds `scanCmd.PersistentPostRunE` (the CLI driver file), dropping the
CPU-profile bookkeeping and `scan.PrintResults`, which only perform I/O:
the returned error, if any. -/
def persistentPostRunE (cfg : Config) (results : List AggResult) :
    Except String Unit :=
  if IsFailed results then .error "run failed"
  else if IsWarnings results && cfg.FailOnWarnings then
    .error "run failed with warnings"
  else .ok ()

/-! ### Global scan flags and `PersistentPreRunE` -/

/-- The global flag variables of the scan command, one per
`scanCmd.PersistentFlags()` registration (plus the root command's
`--verbose`); `time.Duration` is `Int` nanoseconds. -/
structure ScanFlags where
  configFile : String
  configForVersion : String
  filterFiles : List String
  filterDirs : List String
  filterImages : List String
  components : List String
  failOnWarnings : Bool
  insecurePull : Bool
  limit : Int
  parallelism : Int
  outputFile : String
  outputFormat : String
  pullSecretFile : String
  timeLimit : Int
  cpuProfile : String
  printExceptions : Bool
  verbose : Bool
  deriving Repr, DecidableEq

/-- One nanosecond-valued hour, `1*time.Hour`. -/
def oneHour : Int := 3600000000000

/-- The flag values when no flag is supplied on the command line: the
default of each registration call in `main`. -/
def defaultScanFlags : ScanFlags :=
  { configFile := "", configForVersion := "", filterFiles := []
    filterDirs := [], filterImages := [], components := []
    failOnWarnings := false, insecurePull := false, limit := -1
    parallelism := 5, outputFile := "", outputFormat := "table"
    pullSecretFile := "", timeLimit := oneHour, cpuProfile := ""
    printExceptions := false, verbose := false }

/-- Embeds the flag-copying block of `scanCmd.PersistentPreRunE` (after
`getConfig` has filled the `ConfigFile` part of `config`): each global flag
value is stored into the corresponding `Config` field, the filter lists by
appending. -/
def applyGlobalFlags (flags : ScanFlags) (config : Config) : Config :=
  { config with
    FailOnWarnings := flags.failOnWarnings
    FilterFiles := config.FilterFiles ++ flags.filterFiles
    FilterDirs := config.FilterDirs ++ flags.filterDirs
    FilterImages := config.FilterImages ++ flags.filterImages
    Parallelism := flags.parallelism
    InsecurePull := flags.insecurePull
    OutputFile := flags.outputFile
    OutputFormat := flags.outputFormat
    PrintExceptions := flags.printExceptions
    PullSecret := flags.pullSecretFile
    Limit := flags.limit
    TimeLimit := flags.timeLimit
    Verbose := flags.verbose }

/-! ### `getConfig` and the scan command's pre-run gate -/

/-- Outcome of `toml.DecodeFile` on one path: decoded with the given list of
undecoded ("unknown") keys, failed with `os.ErrNotExist`, or failed with
another parse error. -/
inductive DecodeOutcome where
  | ok (undecoded : List String)
  | errNotExist
  | errOther (msg : String)
  deriving Repr, DecidableEq

/-- Environment for `getConfig`: the outcome of decoding each file path, the
undecoded keys of the embedded default config, and `releases.GetConfigFor`
(its error, or the undecoded keys of decoding the returned bytes). -/
structure ConfigEnv where
  decodeFile : String → DecodeOutcome
  embeddedUndecoded : List String
  getConfigFor : String → Except String (List String)

/-- How `getConfig` ends: normally, with an error, or in a Go `panic`. -/
inductive GetConfigResult where
  | ok
  | err (msg : String)
  | panicked (msg : String)
  deriving Repr, DecidableEq

/-- Renders a list of TOML keys the way `fmt.Errorf("... %+v", un)` prints a
Go string slice. -/
def renderKeys (un : List String) : String :=
  "[" ++ String.intercalate " " un ++ "]"

/-- Embeds `getConfig` (the CLI driver file).  `configFile` and
`configForVersion` are the global flag variables it reads.  Decoding
happens through the environment; the merge `config.Add` only produces a
warning, which is dropped with the rest of the logging. -/
def getConfig (env : ConfigEnv) (configFile configForVersion : String) :
    GetConfigResult :=
  let file := if configFile = "" then "config.toml" else configFile
  let mainStep : GetConfigResult :=
    match env.decodeFile file with
    | .ok un =>
        if un ≠ [] then .err ("unknown keys in config: " ++ renderKeys un)
        else .ok
    | .errNotExist =>
        if configFile = "" then
          -- fall back to the embedded config
          if env.embeddedUndecoded ≠ [] then
            .panicked ("unknown keys in config: " ++
              renderKeys env.embeddedUndecoded)
          else .ok
        else .err ("can't parse config file " ++ file)
    | .errOther _ => .err ("can't parse config file " ++ file)
  match mainStep with
  | .ok =>
      if configForVersion ≠ "" then
        match env.getConfigFor configForVersion with
        | .error e => .err e
        | .ok un =>
            if un ≠ [] then
              .panicked ("unknown keys in config: " ++ renderKeys un)
            else .ok
      else .ok
  | r => r

/-- Embeds the execution of a scan subcommand under cobra as far as the
pre-run gate is concerned: `PersistentPreRunE` runs `getConfig` first and
returns its error if any, in which case cobra never calls the subcommand's
`RunE`; the `Bool` records whether the scan ran. -/
def scanCmdExecute (env : ConfigEnv) (configFile configForVersion : String) :
    Except String Bool :=
  match getConfig env configFile configForVersion with
  | .err e => .error e
  | .panicked e => .error e
  | .ok => .ok true

/-! ### The `payload` subcommand -/

/-- The `--url`/`--file` flags of `scan payload`: `none` when the flag was
not supplied on the command line, `some v` when it was supplied with value
`v` (`cmd.Flags().GetString` then returns `v`, or the default `""`). -/
structure PayloadFlags where
  url : Option String
  file : Option String
  deriving Repr, DecidableEq

/-- How an invocation of `scan payload` ends: rejected by cobra's flag
validation as a usage error, rejected by `RunE` before scanning, or running
`scan.RunPayloadScan` (carrying the `FromURL`/`FromFile` config it uses). -/
inductive PayloadOutcome where
  | usageError
  | errBeforeScan (msg : String)
  | scanned (fromURL fromFile : String)
  deriving Repr, DecidableEq

/-- Embeds the execution of `scan payload`.  The guard on both flags being
supplied is modelled from the spec: `MarkFlagsMutuallyExclusive("url",
"file")` lives in cobra, and per §6 supplying both flags is a usage error
reported before `RunE` runs.  The rest embeds `scanPayload.RunE`: read the
two flags into the config, error out when both are empty, otherwise run the
payload scan. -/
def payloadCmdExecute (flags : PayloadFlags) : PayloadOutcome :=
  if flags.url.isSome && flags.file.isSome then .usageError
  else
    let fromURL := flags.url.getD ""
    let fromFile := flags.file.getD ""
    if fromURL = "" && fromFile = "" then
      .errBeforeScan "either -u, --url or -f, --file option is required"
    else .scanned fromURL fromFile

/-! ### The `binary` subcommand (`gosyms`) -/

/-- The result of `validations.ScanBinary` as far as the `binary`
subcommand's `RunE` inspects it: the `Skip` field, whether `IsSuccess()`
holds, and the `RPM` field. -/
structure BinScanRes where
  Skip : Bool
  success : Bool
  RPM : String
  deriving Repr, DecidableEq

/-- Environment for the `binary` subcommand: what `validations.ScanBinary`
returns for the given top dir and inner path, and what
`config.IgnoreFileByRpm` answers (both are declared outside the two driver
files). -/
structure BinEnv where
  scanBinaryRes : String → String → BinScanRes
  ignoreFileByRpm : String → String → Bool

/-- How the `binary` subcommand's `RunE` ends: with an error return, with a
Go runtime panic (an out-of-range index expression), or normally, carrying
the final value of the `results` slice of `main`. -/
inductive BinRunOutcome where
  | err (msg : String)
  | panicIndexOutOfRange
  | ok (results : List ScanResults)
  deriving Repr, DecidableEq

/-- Embeds `gosyms.RunE` (the CLI driver file).  `results` is the
`var results []*types.ScanResults` slice of `main` as it stands when the
subcommand runs; the statement `results[0] = newResults` panics in Go
whenever `len(results) == 0`, which the embedding makes explicit.  The
stored collection is `NewScanResults()` with the one result appended (the
`path`/`error` details of that result live outside the driver, so only the
collection's length is modelled: one appended element). -/
def gosymsRunE (env : BinEnv) (topdir innerpath : String)
    (results : List ScanResults) : BinRunOutcome :=
  if topdir = "" || innerpath = "" then
    .err "Both -t, --topdir or -i, --innerpath option are required"
  else
    let res := env.scanBinaryRes topdir innerpath
    if res.Skip then .ok results
    else if !res.success && res.RPM ≠ "" && env.ignoreFileByRpm innerpath res.RPM then
      .ok results
    else
      let newResults := NewScanResults.Append ⟨none, none, none⟩
      if results.length = 0 then .panicIndexOutOfRange
      else .ok (results.set 0 newResults)

/-- A node-scan environment in which every external call fails: `rpm -qa`
exits non-zero, so the scan has no packages to walk. -/
def envTrivial : NodeEnv :=
  { rpmQa := .fail "no db" "exit status 1"
    rpmQl := fun _ => .fail "" ""
    lstat := fun _ => .error ""
    stat := fun _ => .error ""
    mime := fun _ => .error ""
    ignoredMimes := []
    scanBinaryErr := fun _ => none }

/-! ## Theorems -/

/-- C1: the scan run is reported as failed (error returned from the
post-run step) iff some failure survives exception matching, or some
warning survives and `--fail-on-warnings` was given; when all results are
success or skipped, no error is returned. -/
theorem postRun_fails_iff (cfg : Config) (results : List AggResult) :
    (persistentPostRunE cfg results ≠ .ok () ↔
      IsFailed results = true ∨
        (IsWarnings results = true ∧ cfg.FailOnWarnings = true))
    ∧ ((∀ r ∈ results, r.status = .success ∨ r.status = .skipped) →
        persistentPostRunE cfg results = .ok ()) := by
  constructor
  · unfold persistentPostRunE
    by_cases hf : IsFailed results <;>
      by_cases hw : IsWarnings results <;>
        by_cases hc : cfg.FailOnWarnings <;>
          simp [hf, hw, hc]
  · intro h
    have hf : IsFailed results = false := by
      simp only [IsFailed, List.any_eq_false]
      intro r hr
      rcases h r hr with h1 | h1 <;> simp [h1]
    have hw : IsWarnings results = false := by
      simp only [IsWarnings, List.any_eq_false]
      intro r hr
      rcases h r hr with h1 | h1 <;> simp [h1]
    simp [persistentPostRunE, hf, hw]

/-- Witness for C1 at a concrete run: two surviving results, one success
and one skipped, under `--fail-on-warnings`; the post-run step returns no
error. -/
theorem postRun_fails_iff_witness :
    persistentPostRunE { zeroConfig with FailOnWarnings := true }
      [⟨.success, false⟩, ⟨.skipped, false⟩] = .ok () :=
  (postRun_fails_iff { zeroConfig with FailOnWarnings := true }
    [⟨.success, false⟩, ⟨.skipped, false⟩]).2 (by decide)

/-- C3: under `payload`, supplying both `--url` and `--file` is a usage
error; supplying neither returns an error before any scan runs; supplying
exactly one (with a non-empty value) runs the scan with that source. -/
theorem payload_url_file_exclusive :
    (∀ u f, payloadCmdExecute ⟨some u, some f⟩ = .usageError)
    ∧ payloadCmdExecute ⟨none, none⟩ =
        .errBeforeScan "either -u, --url or -f, --file option is required"
    ∧ (∀ u, u ≠ "" → payloadCmdExecute ⟨some u, none⟩ = .scanned u "")
    ∧ (∀ f, f ≠ "" → payloadCmdExecute ⟨none, some f⟩ = .scanned "" f) := by
  refine ⟨fun u f => rfl, rfl, fun u hu => ?_, fun f hf => ?_⟩
  · simp [payloadCmdExecute, hu]
  · simp [payloadCmdExecute, hf]

/-- Witness for C3 at concrete invocations: both flags is a usage error and
a lone `--url` runs the scan. -/
theorem payload_url_file_exclusive_witness :
    payloadCmdExecute ⟨some "u1", some "f1"⟩ = .usageError
    ∧ payloadCmdExecute ⟨some "https://p", none⟩ = .scanned "https://p" "" :=
  ⟨payload_url_file_exclusive.1 "u1" "f1",
   payload_url_file_exclusive.2.2.1 "https://p" (by decide)⟩

/-- Counterexample for C7: a node scan does modify `Config.Filter` — on a
config with an empty filter, the filter is non-empty afterwards. -/
theorem nodeScan_modifies_filter :
    (runNodeScan envTrivial zeroConfig).1.Filter ≠ zeroConfig.Filter := by
  decide

/-- C7 amended: running a node scan changes exactly one `Config` field,
`Filter`, by appending the four built-in directory filters; every other
field is left unchanged. -/
theorem nodeScan_config_frame (env : NodeEnv) (cfg : Config) :
    (runNodeScan env cfg).1 =
      { cfg with Filter := cfg.Filter ++ builtinNodeFilters } := rfl

/-- C8: with every global scan flag left at its registration default, the
config consumed by the pipeline gets `Limit = -1`, `Parallelism = 5`,
`OutputFormat = "table"` and `TimeLimit` of one hour. -/
theorem default_flags_in_config (config : Config) :
    (applyGlobalFlags defaultScanFlags config).Limit = -1
    ∧ (applyGlobalFlags defaultScanFlags config).Parallelism = 5
    ∧ (applyGlobalFlags defaultScanFlags config).OutputFormat = "table"
    ∧ (applyGlobalFlags defaultScanFlags config).TimeLimit = oneHour :=
  ⟨rfl, rfl, rfl, rfl⟩

/-- Environment for C9's failing input: `validations.ScanBinary` returns a
non-skipped success with no owning RPM, so neither early return fires. -/
def envC9 : BinEnv :=
  ⟨fun _ _ => ⟨false, true, ""⟩, fun _ _ => false⟩

/-- C9: the `binary` subcommand evaluated at its failing input — a
non-skipped, non-suppressed scan result with `results` still the nil slice
of `main` — reaches `results[0] = newResults` with `len(results) = 0` and
panics with an index-out-of-range error. -/
theorem gosyms_store_panics :
    gosymsRunE envC9 "/top" "/inner" [] = .panicIndexOutOfRange := by
  decide

/-- C10: when `rpm -qa` exits non-zero, `getAllRPMs` returns the empty
package list alongside the error, and `runNodeScan` discards that error,
returning exactly one `ScanResults` collection with zero entries. -/
theorem rpmQa_error_discarded (env : NodeEnv) (cfg : Config)
    (stderr err : String) (h : env.rpmQa = .fail stderr err) :
    getAllRPMs env cfg =
      ([], some ("rpm -qa error (stderr=" ++ stderr ++ ") (err=" ++ err ++ ")"))
    ∧ (runNodeScan env cfg).2 = [⟨[]⟩] := by
  constructor
  · simp [getAllRPMs, h]
  · simp [runNodeScan, getAllRPMs, h, scanRPMs]

/-- Witness for C10 at a concrete environment where `rpm -qa` fails. -/
theorem rpmQa_error_discarded_witness :
    getAllRPMs envTrivial zeroConfig =
      ([], some "rpm -qa error (stderr=no db) (err=exit status 1)")
    ∧ (runNodeScan envTrivial zeroConfig).2 = [⟨[]⟩] :=
  rpmQa_error_discarded envTrivial zeroConfig "no db" "exit status 1" rfl

/-- C2: a non-zero exit of `rpm -ql` for one RPM is a hard error for that
RPM only: `getFilesFromRPM` returns the empty file list alongside the
error, the RPM contributes exactly one error-carrying result, and the scan
of every other RPM before or after it is unaffected. -/
theorem rpmQl_error_isolated (env : NodeEnv) (cfg : Config)
    (filter : List String) (root rpm stderr err : String)
    (h : env.rpmQl rpm = .fail stderr err) :
    getFilesFromRPM env cfg rpm =
      ([], some ("rpm -ql error (stderr=" ++ stderr ++ ") (err=" ++ err ++ ")"))
    ∧ processRPM env filter root rpm =
        [(NewScanResult.SetTag (NewTag rpm)).SetError
          ("rpm -ql error (stderr=" ++ stderr ++ ") (err=" ++ err ++ ")")]
    ∧ ∀ pre post, scanRPMs env filter root (pre ++ rpm :: post) =
        scanRPMs env filter root pre
          ++ (NewScanResult.SetTag (NewTag rpm)).SetError
              ("rpm -ql error (stderr=" ++ stderr ++ ") (err=" ++ err ++ ")")
            :: scanRPMs env filter root post := by
  refine ⟨by simp [getFilesFromRPM, h], by simp [processRPM, getFilesFromRPM, h], ?_⟩
  intro pre post
  simp [scanRPMs, processRPM, getFilesFromRPM, h]

/-- Witness for C2 at a concrete environment: `rpm -ql` fails for the only
enumerated RPM. -/
theorem rpmQl_error_isolated_witness :
    getFilesFromRPM envTrivial zeroConfig "kernel" =
      ([], some "rpm -ql error (stderr=) (err=)")
    ∧ processRPM envTrivial [] "" "kernel" =
        [(NewScanResult.SetTag (NewTag "kernel")).SetError
          "rpm -ql error (stderr=) (err=)"]
    ∧ ∀ pre post, scanRPMs envTrivial [] "" (pre ++ "kernel" :: post) =
        scanRPMs envTrivial [] "" pre
          ++ (NewScanResult.SetTag (NewTag "kernel")).SetError
              "rpm -ql error (stderr=) (err=)"
            :: scanRPMs envTrivial [] "" post :=
  rpmQl_error_isolated envTrivial zeroConfig [] "" "kernel" "" "" rfl

/-- C6: when decoding the given (or default) config file succeeds but
leaves undecoded keys, `getConfig` returns an error naming those keys, and
the scan subcommand never runs. -/
theorem config_unknown_keys_rejected (env : ConfigEnv)
    (cf cv : String) (un : List String)
    (h1 : env.decodeFile (if cf = "" then "config.toml" else cf) = .ok un)
    (h2 : un ≠ []) :
    getConfig env cf cv = .err ("unknown keys in config: " ++ renderKeys un)
    ∧ scanCmdExecute env cf cv =
        .error ("unknown keys in config: " ++ renderKeys un) := by
  have hmain : getConfig env cf cv =
      .err ("unknown keys in config: " ++ renderKeys un) := by
    unfold getConfig
    simp [h1, h2]
  exact ⟨hmain, by simp [scanCmdExecute, hmain]⟩

/-- Witness for C6 at a concrete environment whose config file decodes
with one unknown key. -/
theorem config_unknown_keys_rejected_witness :
    getConfig ⟨fun _ => .ok ["badkey"], [], fun _ => .error "no such version"⟩
        "" "" = .err ("unknown keys in config: " ++ renderKeys ["badkey"])
    ∧ scanCmdExecute ⟨fun _ => .ok ["badkey"], [], fun _ => .error "no such version"⟩
        "" "" = .error ("unknown keys in config: " ++ renderKeys ["badkey"]) :=
  config_unknown_keys_rejected
    ⟨fun _ => .ok ["badkey"], [], fun _ => .error "no such version"⟩
    "" "" ["badkey"] rfl (by decide)

/-- Environment for C4's counterexample: one RPM owning one non-filtered
file which is a symlink. -/
def envC4 : NodeEnv :=
  { rpmQa := .ok ["foo"]
    rpmQl := fun _ => .ok ["/bin/x"]
    lstat := fun _ => .ok true
    stat := fun _ => .error ""
    mime := fun _ => .error ""
    ignoredMimes := []
    scanBinaryErr := fun _ => none }

/-- Counterexample for C4: `/bin/x` is a non-filtered file owned by an
enumerated RPM — a path dispatched to the per-file pipeline — yet, being a
symlink, it contributes zero `ScanResult`s to the aggregate, not exactly
one. -/
theorem symlink_no_result :
    isPathFiltered (zeroConfig.Filter ++ builtinNodeFilters) "/bin/x" = false
    ∧ (getAllRPMs envC4 zeroConfig).1 = ["foo"]
    ∧ (getFilesFromRPM envC4 zeroConfig "foo").1 = ["/bin/x"]
    ∧ (runNodeScan envC4 zeroConfig).2 = [⟨[]⟩] := by
  decide

/-- Whether the per-file pipeline of `runNodeScan` records a result for a
path: it does exactly when the path is not filtered and either `Lstat`
fails, or the path is a non-symlink that stats as a non-directory and
whose MIME detection fails or yields a non-ignored type. -/
def producesResult (env : NodeEnv) (filter : List String) (root path : String) :
    Bool :=
  !isPathFiltered filter path &&
    match isSymlink env path with
    | .error _ => true
    | .ok true => false
    | .ok false =>
      let path2 := filepathJoin root path
      match env.stat path2 with
      | .error _ => false
      | .ok true => false
      | .ok false =>
        match env.mime path2 with
        | .error _ => true
        | .ok m => !(m ∈ env.ignoredMimes : Bool)

/-- C4 amended: the node scan returns exactly one aggregate collection,
and each dispatched file contributes exactly one `ScanResult` when
`producesResult` holds and zero otherwise — symlinks, unstat-able paths,
directories and ignored-MIME files contribute none. -/
theorem classifier_totality_amended (env : NodeEnv) (cfg : Config)
    (filter : List String) (root : String) (tag : TagReference) (path : String) :
    ((runNodeScan env cfg).2).length = 1
    ∧ ((processFile env filter root tag path).1).length =
        (if producesResult env filter root path then 1 else 0) := by
  refine ⟨rfl, ?_⟩
  unfold processFile producesResult
  by_cases hf : isPathFiltered filter path
  · simp [hf]
  · simp only [hf, Bool.not_false, Bool.true_and]
    cases hs : isSymlink env path with
    | error e => simp
    | ok b =>
      cases b with
      | true => simp
      | false =>
        cases hst : env.stat (filepathJoin root path) with
        | error e => simp [hst]
        | ok d =>
          cases d with
          | true => simp [hst]
          | false =>
            cases hm : env.mime (filepathJoin root path) with
            | error e => simp [hst, hm]
            | ok m =>
              by_cases hin : m ∈ env.ignoredMimes
              · simp [hst, hm, hin]
              · simp [hst, hm, hin]

/-- Every result the per-file pipeline records comes from an unfiltered
source path, and its `path` field is either that source path or its
root-joined form. -/
lemma processFile_path_shape (env : NodeEnv) (filter : List String)
    (root : String) (tag : TagReference) (path : String) (r : ScanResult)
    (hr : r ∈ (processFile env filter root tag path).1) :
    isPathFiltered filter path = false
    ∧ (r.path = some path ∨ r.path = some (filepathJoin root path)) := by
  unfold processFile at hr
  by_cases hf : isPathFiltered filter path
  · simp [hf] at hr
  · refine ⟨by simp [hf], ?_⟩
    simp only [hf, if_false] at hr
    cases hs : isSymlink env path with
    | error e =>
        rw [hs] at hr
        simp at hr
        subst hr
        exact .inl rfl
    | ok b =>
      cases b with
      | true => rw [hs] at hr; simp at hr
      | false =>
        rw [hs] at hr
        simp only at hr
        cases hst : env.stat (filepathJoin root path) with
        | error e => rw [hst] at hr; simp at hr
        | ok d =>
          cases d with
          | true => rw [hst] at hr; simp at hr
          | false =>
            rw [hst] at hr
            simp only at hr
            cases hm : env.mime (filepathJoin root path) with
            | error e =>
                rw [hm] at hr
                simp at hr
                subst hr
                exact .inr rfl
            | ok m =>
                rw [hm] at hr
                simp only at hr
                by_cases hin : m ∈ env.ignoredMimes
                · simp [hin] at hr
                · simp [hin] at hr
                  subst hr
                  exact .inr rfl

/-- Membership in the files fold of `processRPM`: each recorded result is
either carried in from the accumulator or produced by `processFile` on one
of the files (under the tag state current at that iteration). -/
lemma mem_foldl_processFile (env : NodeEnv) (filter : List String)
    (root : String) (files : List String) :
    ∀ (acc : List ScanResult × TagReference) (r : ScanResult),
      r ∈ (files.foldl
            (fun acc p =>
              let step := processFile env filter root acc.2 p
              (acc.1 ++ step.1, step.2)) acc).1 →
      r ∈ acc.1 ∨ ∃ p ∈ files, ∃ t, r ∈ (processFile env filter root t p).1 := by
  induction files with
  | nil => intro acc r h; exact .inl h
  | cons p ps ih =>
      intro acc r h
      rcases ih _ r h with h1 | h1
      · rcases List.mem_append.1 h1 with h2 | h2
        · exact .inl h2
        · exact .inr ⟨p, by simp, acc.2, h2⟩
      · rcases h1 with ⟨q, hq, t, ht⟩
        exact .inr ⟨q, by simp [hq], t, ht⟩

/-- Every result contributed by one RPM either has no path (the `rpm -ql`
error result) or stems from an unfiltered source path. -/
lemma processRPM_path_shape (env : NodeEnv) (filter : List String)
    (root rpm : String) (r : ScanResult)
    (hr : r ∈ processRPM env filter root rpm) :
    r.path = none
    ∨ ∃ p, isPathFiltered filter p = false
        ∧ (r.path = some p ∨ r.path = some (filepathJoin root p)) := by
  unfold processRPM at hr
  cases h : getFilesFromRPM env { zeroConfig with NodeScan := root } rpm with
  | mk files errOpt =>
    rw [h] at hr
    cases errOpt with
    | some e =>
        simp only [List.mem_singleton] at hr
        subst hr
        exact .inl rfl
    | none =>
        rcases mem_foldl_processFile env filter root files _ r hr with h1 | h1
        · simp at h1
        · rcases h1 with ⟨p, _, t, hp⟩
          rcases processFile_path_shape env filter root t p r hp with ⟨h2, h3⟩
          exact .inr ⟨p, h2, h3⟩

/-- Environment for C5's counterexample: one RPM owning the file
`/modules/x`, a regular non-ignored file, under a scan root of `/lib`. -/
def envC5 : NodeEnv :=
  { rpmQa := .ok ["foo"]
    rpmQl := fun _ => .ok ["/modules/x"]
    lstat := fun _ => .ok false
    stat := fun _ => .ok false
    mime := fun _ => .ok "application/x-executable"
    ignoredMimes := []
    scanBinaryErr := fun _ => none }

/-- Config for C5's counterexample: scan root `/lib`, no user filters. -/
def cfgC5 : Config := { zeroConfig with NodeScan := "/lib" }

/-- Counterexample for C5: with scan root `/lib`, the RPM-reported path
`/modules/x` passes the filter test (it is checked before joining with the
root), yet the reported result path `/lib/modules/x` lies under the
built-in filter entry `/lib/modules` — a path matching a configured filter
appears in the node-scan results. -/
theorem filtered_path_reported :
    (runNodeScan envC5 cfgC5).2 =
      [⟨[⟨some ⟨"/lib/modules/x"⟩, some "/lib/modules/x", none⟩]⟩]
    ∧ strHasPrefix "/lib/modules/x" "/lib/modules" = true
    ∧ isPathFiltered (cfgC5.Filter ++ builtinNodeFilters) "/lib/modules/x"
        = true := by
  decide

/-- C5 amended: the filter is honored on the RPM-reported source paths —
every result in the node-scan output either has no path (an `rpm -ql`
error entry) or stems from a source path matching no configured or
built-in filter, its reported path being that source path or its
root-joined form. -/
theorem nodeScan_filter_honoring_source (env : NodeEnv) (cfg : Config) :
    ∀ rs ∈ (runNodeScan env cfg).2, ∀ r ∈ rs.items,
      r.path = none
      ∨ ∃ p, isPathFiltered (cfg.Filter ++ builtinNodeFilters) p = false
          ∧ (r.path = some p
            ∨ r.path = some (filepathJoin cfg.NodeScan p)) := by
  intro rs hrs r hr
  rw [show (runNodeScan env cfg).2 =
      [⟨scanRPMs env (cfg.Filter ++ builtinNodeFilters) cfg.NodeScan
        ((getAllRPMs env
          { cfg with Filter := cfg.Filter ++ builtinNodeFilters }).1)⟩]
    from rfl] at hrs
  simp only [List.mem_singleton] at hrs
  subst hrs
  simp only [scanRPMs, List.mem_flatten, List.mem_map] at hr
  rcases hr with ⟨items, ⟨rpm, _, hitems⟩, hmem⟩
  subst hitems
  exact processRPM_path_shape env (cfg.Filter ++ builtinNodeFilters)
    cfg.NodeScan rpm r hmem

/-- Concrete config for C5's witness: one user filter entry and an empty
scan root. -/
def cfgW : Config := { zeroConfig with Filter := ["/etc"] }

/-- Concrete environment for C5's witness: one RPM owning one regular,
non-ignored file. -/
def envW : NodeEnv :=
  { rpmQa := .ok ["foo"]
    rpmQl := fun _ => .ok ["/bin/x"]
    lstat := fun _ => .ok false
    stat := fun _ => .ok false
    mime := fun _ => .ok "application/x-executable"
    ignoredMimes := []
    scanBinaryErr := fun _ => none }

/-- Witness for C5's amended theorem at a concrete run: the one reported
result stems from an unfiltered source path. -/
theorem nodeScan_filter_honoring_source_witness :
    (⟨some ⟨"/bin/x"⟩, some "/bin/x", none⟩ : ScanResult).path = none
    ∨ ∃ p, isPathFiltered (cfgW.Filter ++ builtinNodeFilters) p = false
        ∧ ((⟨some ⟨"/bin/x"⟩, some "/bin/x", none⟩ : ScanResult).path = some p
          ∨ (⟨some ⟨"/bin/x"⟩, some "/bin/x", none⟩ : ScanResult).path
              = some (filepathJoin cfgW.NodeScan p)) :=
  nodeScan_filter_honoring_source envW cfgW
    ⟨[⟨some ⟨"/bin/x"⟩, some "/bin/x", none⟩]⟩ (by decide)
    ⟨some ⟨"/bin/x"⟩, some "/bin/x", none⟩ (by decide)

end CheckPayload
